import Mathlib

/-!
Shallow embedding of the vibe-shopping recommendation core:
`src/find_recommendations.py` (EmbeddingBasedMatcher, OutfitRecommendationAgent)
and `src/vibe_shopping_agent.py` (VibeShoppingAgent).

Numeric values (confidences, prices, scores) are modelled as rationals.
The external collaborators (the sentence-transformer embedding model, the
attribute-extraction LLM and the justification LLM) enter as parameters:
the embedding model as a similarity oracle `String → String → ℚ`, the two
LLM calls as `Except`-valued outcomes (error = the Python call raised).
-/

/-- Candidate attribute value with confidence, mirroring the
`AttributeValue` pydantic model and the `{"value": ..., "confidence": ...}`
dicts the agent commits (`vibe_shopping_agent.py`). -/
structure AttributeValue where
  value : String
  confidence : ℚ
deriving DecidableEq, Repr

/-- Committed attribute model: the Python dict mapping attribute name to a
list of value/confidence dicts, as an insertion-ordered association list
(Python dict keys are unique; theorems that need that carry a
`Nodup` hypothesis on the keys). -/
abbrev AttributeModel : Type := List (String × List AttributeValue)

/-- Catalog row of the products DataFrame: columns `id`, `name`, `price`,
the descriptive attribute columns (present iff non-NaN, as an association
list) and an optional `description`. -/
structure Product where
  id : String
  name : String
  price : ℚ
  attrs : List (String × String)
  description : Option String
deriving DecidableEq, Repr

/-- Result record of `find_recommendations.RecommendationResult`. -/
structure RecommendationResult where
  product_id : String
  product_name : String
  match_score : ℚ
  matched_attributes : List String
  product_details : Product
  reasoning : String
  confidence_breakdown : List (String × ℚ)
deriving DecidableEq, Repr

/-- Association-list lookup with Python `dict`/`in` semantics. -/
def alookup (k : String) : List (String × α) → Option α
  | [] => none
  | (k1, v) :: rest => if k1 = k then some v else alookup k rest

/-- Numeric digit value of a character, `none` when not a digit. -/
def digitVal (c : Char) : Option ℕ :=
  if '0' ≤ c ∧ c ≤ '9' then some (c.toNat - Char.toNat '0') else none

/-- Value of a digit string (most significant first); `none` when some
character is not a digit; the empty string counts as 0 (the caller rules
out the all-empty case). -/
def digitsVal (l : List Char) : Option ℕ :=
  l.foldl (fun acc c => acc.bind fun a => (digitVal c).map fun d => a * 10 + d) (some 0)

/-- Models Python `float(s)` on plain decimal numerals (optional sign,
digits, optional fractional part): exactly the shape of budget strings the
system handles; anything else fails (`none`), matching the
`except (ValueError, TypeError)` path. -/
def parseFloat (s : String) : Option ℚ :=
  let cs := s.toList
  let signed : ℚ × List Char :=
    match cs with
    | '-' :: rest => (-1, rest)
    | '+' :: rest => (1, rest)
    | _ => (1, cs)
  let sign := signed.1
  let body := signed.2
  if body.contains '.' then
    let ip := body.takeWhile (fun c => c ≠ '.')
    let fp := (body.dropWhile (fun c => c ≠ '.')).tail
    if fp.contains '.' then none
    else if ip = [] ∧ fp = [] then none
    else
      (digitsVal ip).bind fun i =>
        (digitsVal fp).map fun f =>
          sign * ((i : ℚ) + (f : ℚ) / ((10 : ℚ) ^ fp.length))
  else if body = [] then none
  else (digitsVal body).map fun n => sign * (n : ℚ)

/-- Attribute importance table `EmbeddingBasedMatcher.attribute_weights`,
with the `.get(attr, 1.0)` default. -/
def attribute_weights (attr : String) : ℚ :=
  if attr = "occasion" then (3:ℚ)/2
  else if attr = "category" then (13:ℚ)/10
  else if attr = "fit" then (6:ℚ)/5
  else if attr = "color_or_print" then (11:ℚ)/10
  else if attr = "fabric" then 1
  else if attr = "budget_min" then 1
  else if attr = "budget_max" then 1
  else if attr = "sleeve_length" then (4:ℚ)/5
  else if attr = "neckline" then (4:ℚ)/5
  else if attr = "length" then (4:ℚ)/5
  else 1

/-- Models `_extract_completion_data` on the committed-model shape (every
entry a list of value/confidence dicts, which is what the agent always
passes): completion text parts `"key: v1, v2"` joined by `"; "`, and per
attribute the mean of its confidences (1.0 for an empty list, matching
`np.mean(confidences) if confidences else 1.0`). -/
def extract_completion_data (completion : AttributeModel) :
    String × List (String × ℚ) :=
  let parts := completion.map fun kc =>
    kc.1 ++ ": " ++ String.intercalate ", " (kc.2.map (fun a => a.value))
  let confidence_scores := completion.map fun kc =>
    (kc.1,
      if kc.2 = [] then 1
      else (kc.2.map (fun a => a.confidence)).sum / (kc.2.length : ℚ))
  (String.intercalate "; " parts, confidence_scores)

/-- Models `_calculate_weighted_confidence`. -/
def calculate_weighted_confidence (confidence_scores : List (String × ℚ)) : ℚ :=
  if confidence_scores = [] then 1
  else
    let weighted_sum := (confidence_scores.map fun kc => kc.2 * attribute_weights kc.1).sum
    let total_weight := (confidence_scores.map fun kc => attribute_weights kc.1).sum
    if 0 < total_weight then weighted_sum / total_weight else 1

/-- Budget-resolution loop that appears verbatim in both `_filter_by_budget`
and `find_recommendations`: first candidate of the attribute whose value
parses as a float. -/
def resolve_budget (completion : AttributeModel) (key : String) : Option ℚ :=
  match alookup key completion with
  | none => none
  | some cands => cands.findSome? fun c => parseFloat c.value

/-- Models `_filter_by_budget`: untouched catalog when neither budget key is
present, otherwise sequential `price >= budget_min` / `price <= budget_max`
filters with each bound applied only when it resolved. -/
def filter_by_budget (completion : AttributeModel) (products : List Product) :
    List Product :=
  if (alookup "budget_min" completion).isNone ∧ (alookup "budget_max" completion).isNone then
    products
  else
    let budget_min := resolve_budget completion "budget_min"
    let budget_max := resolve_budget completion "budget_max"
    let f1 :=
      match budget_min with
      | some b => products.filter fun p => decide (b ≤ p.price)
      | none => products
    match budget_max with
    | some b => f1.filter fun p => decide (p.price ≤ b)
    | none => f1

/-- Attribute columns `_product_to_text` serializes, in source order. -/
def relevant_attrs : List String :=
  ["fit", "fabric", "color_or_print", "occasion", "sleeve_length",
   "neckline", "length", "category"]

/-- Models `_product_to_text`. -/
def product_to_text (product : Product) : String :=
  let attrParts := relevant_attrs.filterMap fun attr =>
    (alookup attr product.attrs).map fun v => attr ++ ": " ++ v
  let withName := attrParts ++ ["name: " ++ product.name]
  let withDescr :=
    match product.description with
    | some d => withName ++ ["description: " ++ d]
    | none => withName
  String.intercalate "; " withDescr

/-- Membership test for `attr in product and pd.notna(product[attr])` over a
catalog row: the fixed columns are always present and non-null, the
descriptive columns when listed in `attrs`, `description` when present. -/
def product_has_attr (product : Product) (attr : String) : Bool :=
  attr = "id" || attr = "name" || attr = "price" ||
    (attr = "description" && product.description.isSome) ||
    (alookup attr product.attrs).isSome

/-- Fixed-point decimal rendering of a rational, modelling Python float
formatting `\x7b:.3f\x7d` (round half up). -/
def fmt_fixed (prec : ℕ) (q : ℚ) : String :=
  let scaled : ℤ := ⌊q * (10 : ℚ) ^ prec + 1/2⌋
  let sign := if scaled < 0 then "-" else ""
  let n := scaled.natAbs
  let ip := n / 10 ^ prec
  let fp := n % 10 ^ prec
  let fpStr := toString fp
  let pad := String.mk (List.replicate (prec - fpStr.length) '0')
  sign ++ toString ip ++ "." ++ pad ++ fpStr

/-- Models `_get_matched_attributes`. -/
def get_matched_attributes (product : Product)
    (confidence_scores : List (String × ℚ)) : List String × List (String × ℚ) :=
  let hits := confidence_scores.filter fun kc => product_has_attr product kc.1
  (hits.map (fun kc => kc.1 ++ ": " ++ fmt_fixed 3 kc.2), hits)

/-- Models `_build_reasoning`. -/
def build_reasoning (base_similarity avg_confidence weighted_score : ℚ)
    (confidence_breakdown : List (String × ℚ)) : String :=
  let reasoning_parts :=
    ["Similarity: " ++ fmt_fixed 3 base_similarity,
     "Confidence: " ++ fmt_fixed 3 avg_confidence,
     "Final Score: " ++ fmt_fixed 3 weighted_score]
  let reasoning_parts :=
    if confidence_breakdown = [] then reasoning_parts
    else
      let high := (confidence_breakdown.filter fun kc => decide ((4:ℚ)/5 < kc.2)).map Prod.fst
      let medium := (confidence_breakdown.filter fun kc =>
        decide ((1:ℚ)/2 < kc.2) && decide (kc.2 ≤ (4:ℚ)/5)).map Prod.fst
      let low := (confidence_breakdown.filter fun kc => decide (kc.2 ≤ (1:ℚ)/2)).map Prod.fst
      let reasoning_parts :=
        if high ≠ [] then reasoning_parts ++ ["High confidence: " ++ String.intercalate ", " high]
        else reasoning_parts
      let reasoning_parts :=
        if medium ≠ [] then reasoning_parts ++ ["Medium confidence: " ++ String.intercalate ", " medium]
        else reasoning_parts
      if low ≠ [] then reasoning_parts ++ ["Low confidence: " ++ String.intercalate ", " low]
      else reasoning_parts
  String.intercalate " | " reasoning_parts

/-- Scoring of one budget-surviving product inside `EmbeddingBasedMatcher.match`:
`sim` is the embedding-and-cosine-similarity oracle applied to the completion
text and the product text. -/
def result_for (sim : String → String → ℚ) (completion : AttributeModel)
    (product : Product) : RecommendationResult :=
  let data := extract_completion_data completion
  let avg_confidence := calculate_weighted_confidence data.2
  let base_similarity := sim data.1 (product_to_text product)
  let confidence_weighted_score := base_similarity * avg_confidence
  let matched := get_matched_attributes product data.2
  { product_id := product.id
    product_name := product.name
    match_score := confidence_weighted_score
    matched_attributes := matched.1
    product_details := product
    reasoning := build_reasoning base_similarity avg_confidence
      confidence_weighted_score matched.2
    confidence_breakdown := matched.2 }

/-- Scored results in catalog order (the `results` list built by the
`for ... in filtered_products.iterrows()` loop, before sorting). -/
def scored_results (sim : String → String → ℚ) (completion : AttributeModel)
    (products : List Product) : List RecommendationResult :=
  (filter_by_budget completion products).map (result_for sim completion)

/-- Descending score order used by `sorted(results, key=..., reverse=True)`. -/
def score_ge (a b : RecommendationResult) : Prop := b.match_score ≤ a.match_score

instance : DecidableRel score_ge := fun a b =>
  inferInstanceAs (Decidable (b.match_score ≤ a.match_score))

instance : IsTotal RecommendationResult score_ge :=
  ⟨fun a b => (le_total b.match_score a.match_score).imp id id⟩

instance : IsTrans RecommendationResult score_ge :=
  ⟨fun _ _ _ h1 h2 => le_trans h2 h1⟩

/-- Models `EmbeddingBasedMatcher.match` (renamed: `match` is a Lean
keyword). Python `sorted(..., reverse=True)` is a stable descending sort,
modelled by insertion sort under `score_ge`. -/
def match_products (sim : String → String → ℚ) (completion : AttributeModel)
    (products : List Product) : List RecommendationResult :=
  if filter_by_budget completion products = [] then []
  else (scored_results sim completion products).insertionSort score_ge

/-- Failure conditions of `find_recommendations` (the two `ValueError`s),
carrying the resolved budget bounds for the in-budget case. -/
inductive FindError where
  | noResultsInBudget (budget_min budget_max : Option ℚ)
  | noResults
deriving DecidableEq, Repr

/-- User-facing message of each `ValueError` raised by `find_recommendations`. -/
def find_error_message : FindError → String
  | FindError.noResultsInBudget bmin bmax =>
    let budget_str :=
      match bmin, bmax with
      | some a, some b => "between $" ++ toString a ++ " and $" ++ toString b
      | none, some b => "under $" ++ toString b
      | some a, none => "over $" ++ toString a
      | none, none => ""
    "I couldn\x27t find any products within your budget range " ++ budget_str ++
      ". Would you like to adjust your budget or try a different style?"
  | FindError.noResults =>
    "I couldn\x27t find exact matches for your vibe. Please start a new conversation."

/-- Models `OutfitRecommendationAgent.find_recommendations`: raised
`ValueError`s become `Except.error`. -/
def find_recommendations (sim : String → String → ℚ) (completion : AttributeModel)
    (catalog : List Product) (min_score : ℚ) (max_results : ℕ) :
    Except FindError (List RecommendationResult) :=
  let results := match_products sim completion catalog
  if results = [] then
    let budget_min := resolve_budget completion "budget_min"
    let budget_max := resolve_budget completion "budget_max"
    if budget_min.isSome ∨ budget_max.isSome then
      Except.error (FindError.noResultsInBudget budget_min budget_max)
    else Except.error FindError.noResults
  else
    let results := results.filter fun m => decide (min_score < m.match_score)
    if results = [] then Except.error FindError.noResults
    else Except.ok (results.take max_results)

/-- Acceptance threshold `CONFIDENCE_THRESHOLD` of `vibe_shopping_agent.py`. -/
def CONFIDENCE_THRESHOLD : ℚ := (7:ℚ)/10

/-- Raw attribute payload the extraction LLM returns, after JSON parsing:
per key either `none` (the value was not a list, skipped by the
`isinstance(attr_list, List)` check) or a list of items, each either `none`
(not a dict, skipped by the `isinstance(attr_item, Dict)` check) or the
value/confidence pair read with the `.get("value", "")` /
`.get("confidence", 0.0)` defaults. -/
structure RawExtraction where
  attributes : List (String × Option (List (Option AttributeValue)))
  follow_up : String

/-- Appends a candidate to the entry of `k` (dict `extracted_attrs[key].append`). -/
def add_to_key (m : AttributeModel) (k : String) (c : AttributeValue) : AttributeModel :=
  (m : List (String × List AttributeValue)).map fun kc =>
    if kc.1 = k then (kc.1, kc.2 ++ [c]) else kc

/-- Models `if key not in extracted_attrs: extracted_attrs[key] = []`. -/
def ensure_key (m : AttributeModel) (k : String) : AttributeModel :=
  if (alookup k m).isSome then m
  else (m : List (String × List AttributeValue)) ++ [(k, [])]

/-- Shaping loop of `_extract_attributes_llm`: drops non-list values and
non-dict items, and keeps only candidates with a non-empty value and
confidence at least `CONFIDENCE_THRESHOLD`. -/
def shape_extraction (raw : List (String × Option (List (Option AttributeValue)))) :
    AttributeModel :=
  raw.foldl
    (fun acc kv =>
      match kv.2 with
      | none => acc
      | some items =>
        items.foldl
          (fun acc2 it =>
            match it with
            | none => acc2
            | some c =>
              if c.value = "" ∨ c.confidence < CONFIDENCE_THRESHOLD then acc2
              else add_to_key acc2 kv.1 c)
          (ensure_key acc kv.1))
    []

/-- Models `_extract_attributes_llm`: on any exception in the try block
(`outcome = Except.error`), returns the empty model and no follow-up. -/
def extract_attributes_llm (outcome : Except Unit RawExtraction) :
    AttributeModel × String :=
  match outcome with
  | Except.error _ => ([], "")
  | Except.ok r => (shape_extraction r.attributes, r.follow_up)

/-- Product summary the justifier returns (`Product` pydantic model; renamed
to avoid the catalog `Product`). -/
structure ProductSummary where
  name : String
  price : String
deriving DecidableEq, Repr

/-- Models `ProductWithJustification`. -/
structure ProductWithJustification where
  product : ProductSummary
  justification : String
deriving DecidableEq, Repr

/-- Fallback justification built in the `except` branch of
`_generate_justification_llm`. -/
def fallback_justification (m : RecommendationResult) : ProductWithJustification :=
  { product := { name := m.product_name, price := toString m.product_details.price }
    justification :=
      "A versatile " ++ ((alookup "category" m.product_details.attrs).getD "piece") ++
        " that matches your style perfectly with a " ++ fmt_fixed 2 m.match_score ++
        " compatibility score." }

/-- Outcome of the justifier try block: `ok` with the parsed product list, or
`error` carrying whatever results were appended before the exception. -/
def JustifierOutcome : Type :=
  Except (List ProductWithJustification) (List ProductWithJustification)

/-- Models `_generate_justification_llm`: on exception, the fallback
justifications for every match are appended after any partially built
results. -/
def generate_justification_llm (outcome : JustifierOutcome)
    (found : List RecommendationResult) : List ProductWithJustification :=
  match outcome with
  | Except.ok l => l
  | Except.error built => built ++ found.map fallback_justification

/-- Numbered product lines of the recommendation response. -/
def format_picks (l : List ProductWithJustification) : String :=
  String.join ((List.enumFrom 1 l).map fun im =>
    toString im.1 ++ ". **" ++ im.2.product.name ++ "** ($" ++ im.2.product.price ++
      ")\n " ++ im.2.justification ++ "\n\n")

/-- Models `_generate_recommendations`: `ValueError`s from
`find_recommendations` are caught and returned as the message text
(`min_score` and `max_results` take their Python defaults 0.3 and 10). -/
def generate_recommendations (sim : String → String → ℚ) (catalog : List Product)
    (attributes : AttributeModel) (just : JustifierOutcome) : String :=
  match find_recommendations sim attributes catalog ((3:ℚ)/10) 10 with
  | Except.error e => find_error_message e
  | Except.ok found =>
    if found = [] then
      "I couldn\x27t find any matches for your preferences. Would you like to try a different style or adjust your requirements?"
    else
      let top_matches := found.take 3
      let products_with_justifications := generate_justification_llm just top_matches
      "Here are my top picks for you:\n\n" ++ format_picks products_with_justifications

/-- Conversation state of `VibeShoppingAgent`. -/
structure AgentState where
  conversation : List (String × String)
  attributes : AttributeModel
  follow_up_count : ℕ
deriving DecidableEq

/-- Follow-up budget `self.max_follow_ups`. -/
def max_follow_ups : ℕ := 2

/-- State set up by `VibeShoppingAgent.__init__` (and restored by
`reset_conversation`). -/
def initial_state : AgentState :=
  { conversation := [], attributes := [], follow_up_count := 0 }

/-- Assistant reply of the follow-up branch of `process_query`. -/
def follow_up_response (user_input follow_up : String) : String :=
  "Great! I found some lovely options for \x27" ++ user_input ++
    "\x27. To help me find the perfect pieces for you, " ++ follow_up

/-- Models `process_query`, one user turn: append the user message, replace
the committed attributes with the freshly shaped extraction, then either ask
the follow-up (non-empty question and budget left) or emit the
recommendation-stage response. -/
def process_query (ext : Except Unit RawExtraction) (sim : String → String → ℚ)
    (catalog : List Product) (just : JustifierOutcome) (s : AgentState)
    (user_input : String) : AgentState :=
  let conv1 := s.conversation ++ [("user", user_input)]
  let extracted := extract_attributes_llm ext
  if extracted.2 ≠ "" ∧ s.follow_up_count < max_follow_ups then
    { conversation := conv1 ++ [("assistant", follow_up_response user_input extracted.2)]
      attributes := extracted.1
      follow_up_count := s.follow_up_count + 1 }
  else
    { conversation :=
        conv1 ++ [("assistant", generate_recommendations sim catalog extracted.1 just)]
      attributes := extracted.1
      follow_up_count := s.follow_up_count }

/-- Reachable conversation states: the initial state, any processed turn, and
`reset_conversation` (which restores the initial state). -/
inductive Reachable : AgentState → Prop where
  | init : Reachable initial_state
  | step {s : AgentState} (ext : Except Unit RawExtraction)
      (sim : String → String → ℚ) (catalog : List Product)
      (just : JustifierOutcome) (user_input : String) :
      Reachable s → Reachable (process_query ext sim catalog just s user_input)
  | reset {s : AgentState} : Reachable s → Reachable initial_state

/-- Characterization predicate for budget filtering: price at least the
resolved `budget_min` (when present) and at most the resolved `budget_max`
(when present). -/
def budget_keep (completion : AttributeModel) (p : Product) : Bool :=
  (match resolve_budget completion "budget_min" with
   | some b => decide (b ≤ p.price)
   | none => true) &&
  (match resolve_budget completion "budget_max" with
   | some b => decide (p.price ≤ b)
   | none => true)

theorem resolve_budget_none_of_alookup_none {completion : AttributeModel} {key : String}
    (h : alookup key completion = none) : resolve_budget completion key = none := by
  unfold resolve_budget
  rw [h]

theorem filter_by_budget_eq_filter (completion : AttributeModel) (products : List Product) :
    filter_by_budget completion products = products.filter (budget_keep completion) := by
  unfold filter_by_budget budget_keep
  by_cases h : (alookup "budget_min" completion).isNone ∧ (alookup "budget_max" completion).isNone
  · rw [if_pos h]
    rw [resolve_budget_none_of_alookup_none (Option.isNone_iff_eq_none.mp h.1),
        resolve_budget_none_of_alookup_none (Option.isNone_iff_eq_none.mp h.2)]
    simp
  · rw [if_neg h]
    rcases hmin : resolve_budget completion "budget_min" with _ | bmin <;>
      rcases hmax : resolve_budget completion "budget_max" with _ | bmax <;>
      simp [List.filter_filter, Bool.and_comm]

/-- C7: for every model and catalog, budget filtering keeps exactly the
items whose price lies within the resolved bounds, and returns the catalog
unchanged when neither `budget_min` nor `budget_max` resolves to a number
(the filter is a pure function of its inputs). -/
theorem claim_C7 (completion : AttributeModel) (products : List Product) :
    filter_by_budget completion products = products.filter (budget_keep completion) ∧
    (resolve_budget completion "budget_min" = none →
      resolve_budget completion "budget_max" = none →
      filter_by_budget completion products = products) := by
  refine ⟨filter_by_budget_eq_filter completion products, fun h1 h2 => ?_⟩
  rw [filter_by_budget_eq_filter]
  unfold budget_keep
  rw [h1, h2]
  simp

/-- Witness for C7: a model whose only budget entry does not parse as a
number leaves a concrete catalog untouched. -/
theorem claim_C7_witness :
    filter_by_budget [("budget_min", [⟨"cheap", (9:ℚ)/10⟩])] [⟨"1", "A", 40, [], none⟩] =
      List.filter (budget_keep [("budget_min", [⟨"cheap", (9:ℚ)/10⟩])]) [⟨"1", "A", 40, [], none⟩] ∧
    filter_by_budget [("budget_min", [⟨"cheap", (9:ℚ)/10⟩])] [⟨"1", "A", 40, [], none⟩] =
      [⟨"1", "A", 40, [], none⟩] :=
  ⟨(claim_C7 _ _).1, (claim_C7 _ _).2 rfl rfl⟩

/-- C2: whenever both budget bounds resolve to numbers with
`budget_min > budget_max`, `find()` fails with `NoResultsInBudget` carrying
both resolved bounds, for every catalog and every similarity oracle; no
item is returned and the bounds are not swapped. -/
theorem claim_C2 (sim : String → String → ℚ) (completion : AttributeModel)
    (catalog : List Product) (bmin bmax min_score : ℚ) (max_results : ℕ)
    (h1 : resolve_budget completion "budget_min" = some bmin)
    (h2 : resolve_budget completion "budget_max" = some bmax)
    (hlt : bmax < bmin) :
    find_recommendations sim completion catalog min_score max_results =
      Except.error (FindError.noResultsInBudget (some bmin) (some bmax)) := by
  have hfe : filter_by_budget completion catalog = [] := by
    rw [filter_by_budget_eq_filter, List.filter_eq_nil_iff]
    intro p _
    unfold budget_keep
    rw [h1, h2]
    simp only [Bool.and_eq_true, decide_eq_true_eq, not_and]
    intro hpmin hpmax
    linarith
  have hm : match_products sim completion catalog = [] := by
    unfold match_products
    rw [hfe]
    simp
  unfold find_recommendations
  rw [hm, h1, h2]
  simp

/-- Witness for C2: `budget_min = "100"`, `budget_max = "50"` fail with the
bounds (100, 50) on a concrete catalog. -/
theorem claim_C2_witness :
    find_recommendations (fun _ _ => 1)
        [("budget_min", [⟨"100", (9:ℚ)/10⟩]), ("budget_max", [⟨"50", (9:ℚ)/10⟩])]
        [⟨"1", "A", 75, [], none⟩] ((3:ℚ)/10) 10 =
      Except.error (FindError.noResultsInBudget (some 100) (some 50)) := by
  refine claim_C2 _ _ _ _ _ _ _ ?_ ?_ (by norm_num)
  · show resolve_budget _ "budget_min" = some 100
    simp [resolve_budget, alookup, parseFloat, digitsVal, digitVal]
  · show resolve_budget _ "budget_max" = some 50
    simp [resolve_budget, alookup, parseFloat, digitsVal, digitVal]

theorem process_query_attributes (ext : Except Unit RawExtraction)
    (sim : String → String → ℚ) (catalog : List Product) (just : JustifierOutcome)
    (s : AgentState) (user_input : String) :
    (process_query ext sim catalog just s user_input).attributes =
      (extract_attributes_llm ext).1 := by
  unfold process_query
  dsimp only
  split <;> rfl

/-- C9: for every extractor, embedding and justifier behavior — including
failing ones — `process_query` returns normally: the turn always ends with
exactly one user message and one assistant message appended to the
conversation, never a propagated exception. -/
theorem claim_C9 (ext : Except Unit RawExtraction) (sim : String → String → ℚ)
    (catalog : List Product) (just : JustifierOutcome) (s : AgentState)
    (user_input : String) :
    ∃ response : String,
      (process_query ext sim catalog just s user_input).conversation =
        s.conversation ++ [("user", user_input), ("assistant", response)] := by
  unfold process_query
  dsimp only
  split
  · exact ⟨follow_up_response user_input (extract_attributes_llm ext).2, by simp⟩
  · exact ⟨generate_recommendations sim catalog (extract_attributes_llm ext).1 just, by simp⟩

/-- C10: when the extractor call fails, the committed model is replaced by
the empty model (earlier attributes are discarded) and the turn goes
straight to the recommendation stage, since the failed extraction also
yields no follow-up question. -/
theorem claim_C10 (sim : String → String → ℚ) (catalog : List Product)
    (just : JustifierOutcome) (s : AgentState) (user_input : String) :
    (process_query (Except.error ()) sim catalog just s user_input).attributes = [] ∧
    (process_query (Except.error ()) sim catalog just s user_input).conversation =
      s.conversation ++ [("user", user_input),
        ("assistant", generate_recommendations sim catalog [] just)] ∧
    (process_query (Except.error ()) sim catalog just s user_input).follow_up_count =
      s.follow_up_count := by
  unfold process_query extract_attributes_llm
  simp

/-- C5 counterexample: merging does not deduplicate candidate values — a
single extractor reply containing the value "top" twice for `category`
yields a reachable committed model whose `category` entry holds two
candidates with the same value. -/
theorem claim_C5_counterexample :
    ¬ ∀ s : AgentState, Reachable s →
        ∀ kc ∈ s.attributes, (kc.2.map (fun c => c.value)).Nodup := by
  intro h
  have hr : Reachable (process_query
      (Except.ok ⟨[("category", some [some ⟨"top", (4:ℚ)/5⟩, some ⟨"top", (9:ℚ)/10⟩])], "q"⟩)
      (fun _ _ => 0) [] (Except.ok []) initial_state "hi") :=
    Reachable.step _ _ _ _ _ Reachable.init
  have hmem : ("category", [(⟨"top", (4:ℚ)/5⟩ : AttributeValue), ⟨"top", (9:ℚ)/10⟩]) ∈
      (process_query
        (Except.ok ⟨[("category", some [some ⟨"top", (4:ℚ)/5⟩, some ⟨"top", (9:ℚ)/10⟩])], "q"⟩)
        (fun _ _ => 0) [] (Except.ok []) initial_state "hi").attributes := by
    rw [process_query_attributes]
    simp [extract_attributes_llm, shape_extraction, ensure_key, add_to_key, alookup,
      CONFIDENCE_THRESHOLD, initial_state]
    norm_num
  have := h _ hr _ hmem
  simp at this

/-- C5 (amended): the committed model is wholly replaced each turn by the
current extraction after shape filtering — candidates are kept in extractor
output order, duplicates of the same value included; no union by value and
no last-write-wins deduplication takes place. -/
theorem claim_C5_amended (ext : Except Unit RawExtraction) (sim : String → String → ℚ)
    (catalog : List Product) (just : JustifierOutcome) (s : AgentState)
    (user_input : String) :
    (process_query ext sim catalog just s user_input).attributes =
      (extract_attributes_llm ext).1 :=
  process_query_attributes ext sim catalog just s user_input

/-- Query-side serialization of the committed model (the first component of
`_extract_completion_data`, the text handed to the embedding model). -/
def completion_text (completion : AttributeModel) : String :=
  (extract_completion_data completion).1

/-- C8 counterexample: two models that are equal as mappings (same key set,
no duplicate keys, equal value lists per key — here a permutation of the
same two entries) serialize to different strings, because `as_text` follows
insertion order rather than a fixed canonical order. -/
theorem claim_C8_counterexample :
    (([("fabric", [⟨"Silk", 1⟩]), ("length", [⟨"Mini", 1⟩])] : AttributeModel).map Prod.fst).Nodup ∧
    (([("length", [⟨"Mini", 1⟩]), ("fabric", [⟨"Silk", 1⟩])] : AttributeModel).map Prod.fst).Nodup ∧
    ([("fabric", [⟨"Silk", 1⟩]), ("length", [⟨"Mini", 1⟩])] : AttributeModel).Perm
      [("length", [⟨"Mini", 1⟩]), ("fabric", [⟨"Silk", 1⟩])] ∧
    completion_text [("fabric", [⟨"Silk", 1⟩]), ("length", [⟨"Mini", 1⟩])] ≠
      completion_text [("length", [⟨"Mini", 1⟩]), ("fabric", [⟨"Silk", 1⟩])] := by
  refine ⟨by simp, by simp, List.Perm.swap _ _ _, ?_⟩
  decide

/-- C8 (amended): `as_text` serializes the attributes in the model's
insertion order, in the format `"attr1: v1, v2; attr2: v3"`, ignoring
confidences: two models with the same ordered sequence of attribute names
and value lists (though possibly different confidences) produce the same
string. -/
theorem claim_C8_amended (m1 m2 : AttributeModel)
    (h : m1.map (fun kc => (kc.1, kc.2.map (fun c => c.value))) =
         m2.map (fun kc => (kc.1, kc.2.map (fun c => c.value)))) :
    completion_text m1 = completion_text m2 := by
  unfold completion_text extract_completion_data
  dsimp only
  congr 1
  have key : ∀ m : AttributeModel,
      (m.map fun kc => kc.1 ++ ": " ++ String.intercalate ", " (kc.2.map (fun a => a.value))) =
        (m.map (fun kc => (kc.1, kc.2.map (fun c => c.value)))).map
          (fun kv => kv.1 ++ ": " ++ String.intercalate ", " kv.2) := by
    intro m
    rw [List.map_map]
    rfl
  rw [key, key, h]

/-- Witness for C8 (amended): two one-attribute models differing only in
confidence serialize identically. -/
theorem claim_C8_amended_witness :
    completion_text [("fit", [⟨"Slim", (4:ℚ)/5⟩])] =
      completion_text [("fit", [⟨"Slim", (9:ℚ)/10⟩])] :=
  claim_C8_amended _ _ rfl

/-- Weighted-confidence factor the matcher actually computes for a model:
`_calculate_weighted_confidence` applied to the per-attribute confidences
from `_extract_completion_data`. -/
def weighted_confidence_of (completion : AttributeModel) : ℚ :=
  calculate_weighted_confidence (extract_completion_data completion).2

/-- Formula asserted by the spec sentence behind C1: importance-weighted
mean over the attributes of the MAXIMUM confidence among each attribute's
retained candidates. -/
def claimed_weighted_confidence_max (completion : AttributeModel) : ℚ :=
  if completion = [] then 1
  else
    ((completion.map fun kc =>
        attribute_weights kc.1 * ((kc.2.map fun c => c.confidence).foldr max 0)).sum) /
      ((completion.map fun kc => attribute_weights kc.1).sum)

/-- Mean confidence of one attribute's candidate list (1 when empty),
matching `np.mean(confidences) if confidences else 1.0`. -/
def attr_mean_confidence (cands : List AttributeValue) : ℚ :=
  if cands = [] then 1
  else (cands.map fun c => c.confidence).sum / (cands.length : ℚ)

/-- Amended formula: importance-weighted mean over the attributes of the
MEAN confidence of each attribute's candidates. -/
def spec_weighted_confidence_mean (completion : AttributeModel) : ℚ :=
  if completion = [] then 1
  else
    ((completion.map fun kc => attribute_weights kc.1 * attr_mean_confidence kc.2).sum) /
      ((completion.map fun kc => attribute_weights kc.1).sum)

/-- C1 counterexample: on a model with one attribute holding candidates of
confidence 0.7 and 0.9, the code computes the mean (0.8), not the claimed
maximum (0.9). -/
theorem claim_C1_counterexample :
    weighted_confidence_of [("category", [⟨"a", (7:ℚ)/10⟩, ⟨"b", (9:ℚ)/10⟩])] ≠
      claimed_weighted_confidence_max [("category", [⟨"a", (7:ℚ)/10⟩, ⟨"b", (9:ℚ)/10⟩])] := by
  have h1 : weighted_confidence_of [("category", [⟨"a", (7:ℚ)/10⟩, ⟨"b", (9:ℚ)/10⟩])] = 4/5 := by
    unfold weighted_confidence_of calculate_weighted_confidence extract_completion_data
    simp [attribute_weights]
    norm_num
  have h2 : claimed_weighted_confidence_max
      [("category", [⟨"a", (7:ℚ)/10⟩, ⟨"b", (9:ℚ)/10⟩])] = 9/10 := by
    unfold claimed_weighted_confidence_max
    simp [attribute_weights]
    norm_num
  rw [h1, h2]
  norm_num

theorem attribute_weights_pos (attr : String) : 0 < attribute_weights attr := by
  unfold attribute_weights
  split_ifs <;> norm_num

/-- C1 (amended): the weighted-confidence factor is the importance-weighted
mean over the model's attributes of the MEAN confidence among that
attribute's retained candidates (an attribute with an empty candidate list
counts as confidence 1), with the claimed weight table — occasion 1.5,
category 1.3, fit 1.2, color_or_print 1.1, fabric/budget_min/budget_max
1.0, sleeve_length/neckline/length 0.8, default 1.0. -/
theorem claim_C1_amended (completion : AttributeModel)
    (_hkeys : (completion.map Prod.fst).Nodup) :
    weighted_confidence_of completion = spec_weighted_confidence_mean completion := by
  unfold weighted_confidence_of spec_weighted_confidence_mean
    calculate_weighted_confidence extract_completion_data
  dsimp only
  rcases completion with _ | ⟨kc, rest⟩
  · simp
  · rw [if_neg (show ¬((kc :: rest).map (fun kc =>
      ((kc.1 : String), if kc.2 = [] then (1:ℚ)
        else (kc.2.map (fun a => a.confidence)).sum / (kc.2.length : ℚ))) = []) by simp),
      if_neg (List.cons_ne_nil kc rest)]
    rw [List.map_map, List.map_map]
    have hpos : 0 < ((kc :: rest).map ((fun kc2 => attribute_weights kc2.1) ∘
        (fun kc => (kc.1, if kc.2 = [] then (1:ℚ)
          else (kc.2.map (fun a => a.confidence)).sum / (kc.2.length : ℚ))))).sum := by
      apply List.sum_pos
      · intro x hx
        obtain ⟨kc2, _, rfl⟩ := List.mem_map.mp hx
        exact attribute_weights_pos kc2.1
      · simp
    rw [if_pos hpos]
    congr 1
    apply congrArg List.sum
    apply List.map_congr_left
    intro kc2 _
    simp only [Function.comp, attr_mean_confidence]
    ring

/-- Witness for C1 (amended) at a concrete two-attribute model. -/
theorem claim_C1_amended_witness :
    weighted_confidence_of
        [("occasion", [⟨"Party", (9:ℚ)/10⟩]), ("category", [⟨"top", (4:ℚ)/5⟩, ⟨"dress", 1⟩])] =
      spec_weighted_confidence_mean
        [("occasion", [⟨"Party", (9:ℚ)/10⟩]), ("category", [⟨"top", (4:ℚ)/5⟩, ⟨"dress", 1⟩])] :=
  claim_C1_amended _ (by simp)

/-- Candidate acceptable for the committed model: non-empty value and
confidence at least the acceptance threshold. -/
def good_candidate (c : AttributeValue) : Prop :=
  c.value ≠ "" ∧ CONFIDENCE_THRESHOLD ≤ c.confidence

/-- Model all of whose candidates are acceptable. -/
def good_model (m : AttributeModel) : Prop :=
  ∀ kc ∈ m, ∀ c ∈ kc.2, good_candidate c

/-- Boolean form of `good_candidate`. -/
def good_candidate_b (c : AttributeValue) : Bool :=
  decide (c.value ≠ "") && decide (CONFIDENCE_THRESHOLD ≤ c.confidence)

/-- Restriction of a model to its acceptable candidates. -/
def filter_good (m : AttributeModel) : AttributeModel :=
  m.map fun kc => (kc.1, kc.2.filter good_candidate_b)

theorem good_model_nil : good_model [] := by
  intro kc hkc
  cases hkc

theorem good_model_add_to_key {m : AttributeModel} {k : String} {c : AttributeValue}
    (hm : good_model m) (hc : good_candidate c) : good_model (add_to_key m k c) := by
  intro kc hkc c2 hc2
  unfold add_to_key at hkc
  obtain ⟨kc0, hkc0, heq⟩ := List.mem_map.mp hkc
  by_cases hk : kc0.1 = k
  · rw [if_pos hk] at heq
    subst heq
    rcases List.mem_append.mp hc2 with h | h
    · exact hm kc0 hkc0 c2 h
    · rw [List.mem_singleton.mp h]
      exact hc
  · rw [if_neg hk] at heq
    subst heq
    exact hm kc0 hkc0 c2 hc2

theorem good_model_ensure_key {m : AttributeModel} {k : String}
    (hm : good_model m) : good_model (ensure_key m k) := by
  unfold ensure_key
  split
  · exact hm
  · intro kc hkc c2 hc2
    rcases List.mem_append.mp hkc with h | h
    · exact hm kc h c2 hc2
    · rw [List.mem_singleton.mp h] at hc2
      cases hc2

theorem good_model_inner_fold (items : List (Option AttributeValue)) (k : String) :
    ∀ acc : AttributeModel, good_model acc →
      good_model (items.foldl
        (fun acc2 it =>
          match it with
          | none => acc2
          | some c =>
            if c.value = "" ∨ c.confidence < CONFIDENCE_THRESHOLD then acc2
            else add_to_key acc2 k c)
        acc) := by
  induction items with
  | nil => intro acc hacc; exact hacc
  | cons it rest ih =>
    intro acc hacc
    rw [List.foldl_cons]
    apply ih
    rcases it with _ | c
    · exact hacc
    · dsimp only
      split
      · exact hacc
      · next hcond =>
        push_neg at hcond
        exact good_model_add_to_key hacc ⟨hcond.1, hcond.2⟩

theorem good_model_shape_extraction
    (raw : List (String × Option (List (Option AttributeValue)))) :
    good_model (shape_extraction raw) := by
  unfold shape_extraction
  have main : ∀ acc : AttributeModel, good_model acc →
      good_model (raw.foldl
        (fun acc kv =>
          match kv.2 with
          | none => acc
          | some items =>
            items.foldl
              (fun acc2 it =>
                match it with
                | none => acc2
                | some c =>
                  if c.value = "" ∨ c.confidence < CONFIDENCE_THRESHOLD then acc2
                  else add_to_key acc2 kv.1 c)
              (ensure_key acc kv.1))
        acc) := by
    induction raw with
    | nil => intro acc hacc; exact hacc
    | cons kv rest ih =>
      intro acc hacc
      rw [List.foldl_cons]
      apply ih
      rcases hv : kv.2 with _ | items
      · exact hacc
      · exact good_model_inner_fold items kv.1 _ (good_model_ensure_key hacc)
  exact main [] good_model_nil

/-- C4: in every reachable conversation state, every candidate in the
committed model has a non-empty value and confidence at least 0.7; in
consequence the serialized query text and the confidence weighting of the
model coincide with those of its restriction to acceptable candidates —
sub-threshold candidates never contribute. -/
theorem claim_C4 (s : AgentState) (h : Reachable s) :
    good_model s.attributes ∧
      extract_completion_data s.attributes =
        extract_completion_data (filter_good s.attributes) := by
  have hg : good_model s.attributes := by
    induction h with
    | init => exact good_model_nil
    | step ext sim catalog just user_input _ _ =>
      rw [process_query_attributes]
      rcases ext with _ | r
      · exact good_model_nil
      · exact good_model_shape_extraction r.attributes
    | reset _ _ => exact good_model_nil
  refine ⟨hg, ?_⟩
  have hid : filter_good s.attributes = s.attributes := by
    unfold filter_good
    conv_rhs => rw [show s.attributes = s.attributes.map id from (List.map_id _).symm]
    apply List.map_congr_left
    intro kc hkc
    have : kc.2.filter good_candidate_b = kc.2 := by
      rw [List.filter_eq_self]
      intro c hc
      have hgc := hg kc hkc c hc
      unfold good_candidate_b
      simp only [Bool.and_eq_true, decide_eq_true_eq]
      exact ⟨hgc.1, hgc.2⟩
    rw [this]
    rfl
  rw [hid]


/-- Witness for C4 at a reachable state whose committed model is non-empty. -/
theorem claim_C4_witness :
    good_model (process_query
        (Except.ok ⟨[("category", some [some ⟨"top", (4:ℚ)/5⟩])], "q"⟩)
        (fun _ _ => 0) [] (Except.ok []) initial_state "x").attributes ∧
      extract_completion_data (process_query
          (Except.ok ⟨[("category", some [some ⟨"top", (4:ℚ)/5⟩])], "q"⟩)
          (fun _ _ => 0) [] (Except.ok []) initial_state "x").attributes =
        extract_completion_data (filter_good (process_query
          (Except.ok ⟨[("category", some [some ⟨"top", (4:ℚ)/5⟩])], "q"⟩)
          (fun _ _ => 0) [] (Except.ok []) initial_state "x").attributes) :=
  claim_C4 _ (Reachable.step _ _ _ _ _ Reachable.init)

/-- C3: in every reachable state the follow-up counter never exceeds
`max_follow_ups` (2), and once it has reached 2, every further processed
user turn goes to the recommendation stage — the turn appends the
recommendation-or-failure response and leaves the counter unchanged —
regardless of whether the extractor returned a follow-up question. -/
theorem claim_C3 (s : AgentState) (h : Reachable s) :
    s.follow_up_count ≤ max_follow_ups ∧
    (s.follow_up_count = max_follow_ups →
      ∀ (ext : Except Unit RawExtraction) (sim : String → String → ℚ)
        (catalog : List Product) (just : JustifierOutcome) (user_input : String),
        process_query ext sim catalog just s user_input =
          { conversation := s.conversation ++ [("user", user_input),
              ("assistant",
                generate_recommendations sim catalog (extract_attributes_llm ext).1 just)]
            attributes := (extract_attributes_llm ext).1
            follow_up_count := s.follow_up_count }) := by
  constructor
  · induction h with
    | init => exact Nat.zero_le _
    | step ext sim catalog just user_input _ ih =>
      unfold process_query
      dsimp only
      split
      · next hcond => exact hcond.2
      · exact ih
    | reset _ _ => exact Nat.zero_le _
  · intro h2 ext sim catalog just user_input
    unfold process_query
    dsimp only
    rw [if_neg (by rw [h2]; simp [max_follow_ups])]
    simp

/-- Witness for C3: after two follow-up turns the counter is 2 and the next
turn is a recommendation turn even though the extractor again asks a
follow-up question. -/
theorem claim_C3_witness :
    (process_query (Except.ok ⟨[], "q"⟩) (fun _ _ => 0) [] (Except.ok [])
        (process_query (Except.ok ⟨[], "q"⟩) (fun _ _ => 0) [] (Except.ok [])
          initial_state "a") "b").follow_up_count ≤ max_follow_ups ∧
    process_query (Except.ok ⟨[], "q"⟩) (fun _ _ => 0) [] (Except.ok [])
        (process_query (Except.ok ⟨[], "q"⟩) (fun _ _ => 0) [] (Except.ok [])
          (process_query (Except.ok ⟨[], "q"⟩) (fun _ _ => 0) [] (Except.ok [])
            initial_state "a") "b") "c" =
      { conversation := (process_query (Except.ok ⟨[], "q"⟩) (fun _ _ => 0) [] (Except.ok [])
            (process_query (Except.ok ⟨[], "q"⟩) (fun _ _ => 0) [] (Except.ok [])
              initial_state "a") "b").conversation ++ [("user", "c"),
          ("assistant", generate_recommendations (fun _ _ => 0) []
            (extract_attributes_llm (Except.ok ⟨[], "q"⟩)).1 (Except.ok []))]
        attributes := (extract_attributes_llm (Except.ok ⟨[], "q"⟩)).1
        follow_up_count := (process_query (Except.ok ⟨[], "q"⟩) (fun _ _ => 0) [] (Except.ok [])
            (process_query (Except.ok ⟨[], "q"⟩) (fun _ _ => 0) [] (Except.ok [])
              initial_state "a") "b").follow_up_count } :=
  have hr : Reachable (process_query (Except.ok ⟨[], "q"⟩) (fun _ _ => 0) [] (Except.ok [])
      (process_query (Except.ok ⟨[], "q"⟩) (fun _ _ => 0) [] (Except.ok [])
        initial_state "a") "b") :=
    Reachable.step _ _ _ _ _ (Reachable.step _ _ _ _ _ Reachable.init)
  ⟨(claim_C3 _ hr).1, (claim_C3 _ hr).2 rfl _ _ _ _ _⟩

theorem result_for_injective (sim : String → String → ℚ) (completion : AttributeModel) :
    Function.Injective (result_for sim completion) := by
  intro p q h
  have := congrArg RecommendationResult.product_details h
  simpa [result_for] using this

theorem match_products_eq_sort (sim : String → String → ℚ)
    (completion : AttributeModel) (products : List Product) :
    match_products sim completion products =
      (scored_results sim completion products).insertionSort score_ge := by
  unfold match_products
  split
  · next hnil =>
    unfold scored_results
    rw [hnil]
    rfl
  · rfl

theorem mem_mem_ne_pair_sublist {α : Type} {a b : α} :
    ∀ {l : List α}, a ∈ l → b ∈ l → a ≠ b →
      [a, b].Sublist l ∨ [b, a].Sublist l := by
  intro l
  induction l with
  | nil => intro ha; cases ha
  | cons c t ih =>
    intro ha hb hne
    rcases List.mem_cons.mp ha with ha1 | ha2
    · rcases List.mem_cons.mp hb with hb1 | hb2
      · exact absurd (ha1.trans hb1.symm) hne
      · subst ha1
        exact Or.inl ((List.singleton_sublist.mpr hb2).cons₂ a)
    · rcases List.mem_cons.mp hb with hb1 | hb2
      · subst hb1
        exact Or.inr ((List.singleton_sublist.mpr ha2).cons₂ b)
      · exact (ih ha2 hb2 hne).imp (List.Sublist.cons c) (List.Sublist.cons c)

theorem sublist_pair_antisymm {α : Type} {a b : α} :
    ∀ {l : List α}, l.Nodup → [a, b].Sublist l → [b, a].Sublist l → a = b := by
  intro l
  induction l with
  | nil => intro _ h1; cases h1
  | cons c t ih =>
    intro hnd h1 h2
    rw [List.nodup_cons] at hnd
    cases h1 with
    | cons _ h1t =>
      cases h2 with
      | cons _ h2t => exact ih hnd.2 h1t h2t
      | cons₂ _ h2t =>
        exact absurd (h1t.subset (by simp)) hnd.1
    | cons₂ _ h1t =>
      cases h2 with
      | cons _ h2t =>
        exact absurd (h2t.subset (by simp)) hnd.1
      | cons₂ _ h2t => rfl

/-- C6: whenever `find()` succeeds, the returned list is sorted in
descending score order, every returned result scores strictly above
`min_score`, at most `max_results` results are returned, and (for a
duplicate-free catalog) two returned results with equal scores appear in
the same order as in the catalog-ordered scored list — the stable sort
makes ties preserve catalog insertion order, so identical inputs always
produce the identical list. -/
theorem claim_C6 (sim : String → String → ℚ) (completion : AttributeModel)
    (catalog : List Product) (min_score : ℚ) (max_results : ℕ)
    (res : List RecommendationResult)
    (hok : find_recommendations sim completion catalog min_score max_results =
      Except.ok res) :
    List.Pairwise score_ge res ∧
    (∀ r ∈ res, min_score < r.match_score) ∧
    res.length ≤ max_results ∧
    (catalog.Nodup → ∀ a b : RecommendationResult,
      [a, b].Sublist res → a.match_score = b.match_score →
      [a, b].Sublist (scored_results sim completion catalog)) := by
  unfold find_recommendations at hok
  rw [match_products_eq_sort] at hok
  dsimp only at hok
  split at hok
  · split at hok <;> cases hok
  · split at hok
    · cases hok
    · rw [Except.ok.injEq] at hok
      subst hok
      set sorted := (scored_results sim completion catalog).insertionSort score_ge with hsorted
      have hsub_res : ((sorted.filter fun m =>
          decide (min_score < m.match_score)).take max_results).Sublist sorted :=
        (List.take_sublist _ _).trans (List.filter_sublist _)
      refine ⟨?_, ?_, ?_, ?_⟩
      · exact List.Pairwise.sublist hsub_res (List.sorted_insertionSort score_ge _)
      · intro r hr
        have hrf := (List.take_sublist _ _).subset hr
        have := (List.mem_filter.mp hrf).2
        exact of_decide_eq_true this
      · rw [List.length_take]
        exact min_le_left _ _
      · intro hnd a b hab heq
        have hnodup_scored : (scored_results sim completion catalog).Nodup := by
          unfold scored_results
          apply List.Nodup.map (result_for_injective sim completion)
          rw [filter_by_budget_eq_filter]
          exact List.Nodup.sublist (List.filter_sublist _) hnd
        have hnodup_sorted : sorted.Nodup :=
          ((List.perm_insertionSort score_ge _).symm).nodup hnodup_scored
        have hab_sorted : [a, b].Sublist sorted := hab.trans hsub_res
        by_cases habe : a = b
        · subst habe
          exact absurd hab_sorted (List.nodup_iff_sublist.mp hnodup_sorted a)
        · have hamem : a ∈ scored_results sim completion catalog :=
            (List.mem_insertionSort score_ge).mp (hab_sorted.subset (by simp))
          have hbmem : b ∈ scored_results sim completion catalog :=
            (List.mem_insertionSort score_ge).mp (hab_sorted.subset (by simp))
          rcases mem_mem_ne_pair_sublist hamem hbmem habe with hgood | hbad
          · exact hgood
          · have hba_sorted : [b, a].Sublist sorted :=
              List.pair_sublist_insertionSort (show score_ge b a from le_of_eq heq) hbad
            exact absurd (sublist_pair_antisymm hnodup_sorted hab_sorted hba_sorted) habe

/-- Similarity oracle for the C6 witness: every pair of texts has
similarity 1. -/
def simW6 : String → String → ℚ := fun _ _ => 1

/-- First witness catalog item. -/
def p61 : Product := ⟨"1", "A", 40, [], none⟩

/-- Second witness catalog item. -/
def p62 : Product := ⟨"2", "B", 80, [], none⟩

/-- Scored witness results (equal scores: a tie). -/
def r61 : RecommendationResult := result_for simW6 [] p61

/-- Second scored witness result. -/
def r62 : RecommendationResult := result_for simW6 [] p62

/-- Witness for C6 on a two-item catalog with tied scores: the empty model
gives both items score 1, so `find()` succeeds with both, sorted, above the
0.3 threshold, within the cap of 10, and in catalog order. -/
theorem claim_C6_witness :
    List.Pairwise score_ge [r61, r62] ∧
    (∀ r ∈ [r61, r62], (3:ℚ)/10 < r.match_score) ∧
    ([r61, r62] : List RecommendationResult).length ≤ 10 ∧
    [r61, r62].Sublist (scored_results simW6 [] [p61, p62]) := by
  have hsorted : (scored_results simW6 [] [p61, p62]).insertionSort score_ge = [r61, r62] := by
    have hs : scored_results simW6 [] [p61, p62] = [r61, r62] := rfl
    rw [hs]
    apply List.Sorted.insertionSort_eq
    refine List.sorted_cons.mpr ⟨?_, List.sorted_singleton _⟩
    intro b hb
    rw [List.mem_singleton.mp hb]
    exact le_rfl
  have hms1 : r61.match_score = 1 := by
    simp [r61, result_for, simW6, extract_completion_data, calculate_weighted_confidence]
  have hms2 : r62.match_score = 1 := by
    simp [r62, result_for, simW6, extract_completion_data, calculate_weighted_confidence]
  have hok : find_recommendations simW6 [] [p61, p62] ((3:ℚ)/10) 10 =
      Except.ok [r61, r62] := by
    unfold find_recommendations
    rw [match_products_eq_sort, hsorted]
    dsimp only
    rw [if_neg (by simp)]
    have hfilter : (([r61, r62] : List RecommendationResult).filter
        fun m => decide ((3:ℚ)/10 < m.match_score)) = [r61, r62] := by
      rw [List.filter_eq_self]
      intro a ha
      rcases List.mem_cons.mp ha with h | h
      · subst h
        rw [decide_eq_true_eq, hms1]
        norm_num
      · rw [List.mem_singleton.mp h, decide_eq_true_eq, hms2]
        norm_num
    rw [hfilter]
    rw [if_neg (by simp)]
    rfl
  have h := claim_C6 simW6 [] [p61, p62] ((3:ℚ)/10) 10 [r61, r62] hok
  exact ⟨h.1, h.2.1, h.2.2.1,
    h.2.2.2 (by decide) r61 r62 (List.Sublist.refl _) rfl⟩
